import Mathlib

/-!
Verification of the pxls template manager core
(src/utils/pxls/template_manager.py of the Clueless repository).

The Python source works on numpy 2D arrays of palette indexes, where the
index 255 is the sentinel meaning transparent (for templates) or
non placeable / unknown (for the canvas placemap and board).  We embed:

* canvas-shaped arrays (board, placemap) as a structure `Arr` carrying the
  two dimensions and a total value function;
* template pixel grids as `List (List Nat)` (rows of palette indexes),
  so that structural equality of templates is decidable, exactly as the
  registry needs for its duplicate checks;
* the stateful registry (`TemplateManager`) as explicit state passing:
  each mutating operation takes the manager value and returns either an
  error together with the untouched manager, or the updated manager.

Machine integers do not overflow in any of the modelled code paths
(indexes and counts are small nonnegative quantities), so Nat and Int are
used directly; coordinates (template origins) are Int because they can be
negative in the source.
-/

namespace Clueless

/-- A canvas-shaped 2D array (board / placemap): height, width and the
value of each cell.  Only indexes with `y < h` and `x < w` are meaningful;
255 is the out-of-palette sentinel. -/
structure Arr where
  h : Nat
  w : Nat
  val : Nat → Nat → Nat

/-- A template, as stored by the tracker.  `grid` is the palettized array
(`Template.palettized_array` in the source, 255 = transparent cell);
`ox`, `oy` is the placement origin on the canvas; the remaining fields are
the metadata used by the registry (`name`, `owner_id` and `hidden` start
as Python `None`, hence the `Option` types).  `is_combo` models the
`isinstance(temp, Combo)` dynamic test of the source.  `total_placeable`
is the count stored by the constructor (`int(np.sum(self.placeable_mask))`).
Fields of the source not read by any modelled operation (canvas_code,
the PIL images) are omitted. -/
structure Template where
  url : List Char
  stylized_url : List Char
  title : Option (List Char)
  name : Option (List Char)
  owner_id : Option Nat
  hidden : Option Bool
  id : Option Nat
  ox : Int
  oy : Int
  grid : List (List Nat)
  is_combo : Bool
  total_placeable : Nat
deriving DecidableEq

/-- Value of the template grid at row `y`, column `x`
(out-of-range reads yield the transparent sentinel 255; in the source the
array is rectangular and all reads are in range). -/
def tval (t : Template) (y x : Nat) : Nat :=
  (t.grid.getD y []).getD x 255

/-- `self.height = self.palettized_array.shape[0]`. -/
def Template.height (t : Template) : Nat := t.grid.length

/-- `self.width = self.palettized_array.shape[1]`. -/
def Template.width (t : Template) : Nat := (t.grid.headD []).length

/-- `Template.crop_array_to_template(array)`: crop a canvas-shaped array to
the template bounds.  The source computes the clamps
`y0 = min(max(0, oy), H)`, `y1 = max(0, min(H, oy + height))` (same for x),
copies `array[y0:y1, x0:x1]` and pastes it at `[y0-oy : y1-oy, x0-ox : x1-ox]`
into an array full of 255 of the template shape.  Pointwise this gives: the
cell `(i, j)` of the result holds `array[i+oy][j+ox]` when `(i, j)` lies in
the paste rectangle, and 255 otherwise.  (In the one case where `y0 - oy`
is negative, `oy > H`, the numpy slices on both sides are empty, and so is
the rectangle below, since then `y0 = y1 = H`.) -/
def cropToTemplate (t : Template) (a : Arr) (i j : Nat) : Nat :=
  let y0 : Int := min (max 0 t.oy) a.h
  let y1 : Int := max 0 (min a.h (t.oy + t.height))
  let x0 : Int := min (max 0 t.ox) a.w
  let x1 : Int := max 0 (min a.w (t.ox + t.width))
  if y0 - t.oy ≤ (i : Int) ∧ (i : Int) < y1 - t.oy
      ∧ x0 - t.ox ≤ (j : Int) ∧ (j : Int) < x1 - t.ox then
    a.val ((i : Int) + t.oy).toNat ((j : Int) + t.ox).toNat
  else 255

/-- `Template.make_placeable_mask()`: true at the non transparent template
cells (`palettized_array != 255`) that the cropped placemap does not
exclude (`cropped_placemap == 255` cells are set to False). -/
def makePlaceableMask (t : Template) (placemap : Arr) (i j : Nat) : Bool :=
  (tval t i j != 255) && (cropToTemplate t placemap i j != 255)

/-- `Template.make_placed_mask(board)`: true at the template cells matching
the cropped board (`palettized_array == cropped_board`), with the cells
outside the placeable mask set to False. -/
def makePlacedMask (t : Template) (board : Arr)
    (placeable : Nat → Nat → Bool) (i j : Nat) : Bool :=
  (tval t i j == cropToTemplate t board i j) && placeable i j

/-- `int(np.sum(mask))` over a mask of shape `hgt × wid`: the number of
true cells. -/
def maskCount (hgt wid : Nat) (m : Nat → Nat → Bool) : Nat :=
  ((Finset.range hgt ×ˢ Finset.range wid).filter (fun p => m p.1 p.2 = true)).card

/-- `self.total_placeable = int(np.sum(self.placeable_mask))`. -/
def totalPlaceable (t : Template) (placemap : Arr) : Nat :=
  maskCount t.height t.width (makePlaceableMask t placemap)

/-- `Template.update_progress(board)`: recompute the placed mask from the
stored placeable mask and return `int(np.sum(self.placed_mask))`. -/
def currentProgress (t : Template) (placemap board : Arr) : Nat :=
  maskCount t.height t.width
    (makePlacedMask t board (makePlaceableMask t placemap))

/-- Result of a successful `Template.crop_to_canvas()`: the cropped array
(its dimensions and cell values) together with the adjusted origin
`x = max(0, ox)`, `y = max(0, oy)`.  `val k l` is only meaningful for
`k < height`, `l < width`. -/
structure CropRes where
  height : Nat
  width : Nat
  x : Nat
  y : Nat
  val : Nat → Nat → Nat

/-- `Template.crop_to_canvas(canvas)` (ported from pyCharity in the
source): slice away the part of the grid left of / above the canvas
(`array = palettized_array[min_y:, min_x:]` with
`min_y = 0 if oy > 0 else -oy`), clamp the origin to `(max(0,ox), max(0,oy))`,
raise (`none` here) when `y > canvas.shape[0] or x > canvas.shape[1]`, and
otherwise clip the remaining height and width to the canvas.  The numpy
slice `palettized_array[min_y:]` has `height - min_y` rows, clamped at 0,
which is Nat subtraction. -/
def cropToCanvas (t : Template) (H W : Nat) : Option CropRes :=
  let mx : Nat := if t.ox > 0 then 0 else (-t.ox).toNat
  let my : Nat := if t.oy > 0 then 0 else (-t.oy).toNat
  let sh : Nat := t.height - my
  let sw : Nat := t.width - mx
  let x : Nat := t.ox.toNat
  let y : Nat := t.oy.toNat
  if y > H ∨ x > W then none
  else
    some ⟨if y + sh > H then H - y else sh,
          if x + sw > W then W - x else sw,
          x, y, fun k l => tval t (my + k) (mx + l)⟩

/-- The placement rectangle of the template (`height × width` cells at
origin `(ox, oy)`) has at least one cell in common with the canvas bounds
`H × W`. -/
def overlaps (t : Template) (H W : Nat) : Prop :=
  ∃ y, y < H ∧ ∃ x, x < W ∧
    t.oy ≤ (y : Int) ∧ (y : Int) < t.oy + t.height ∧
    t.ox ≤ (x : Int) ∧ (x : Int) < t.ox + t.width

/-- A 1×1 template placed at origin (0, 2): on a 2×2 canvas its placement
rectangle (the single cell (2, 0)) has no overlap with the canvas. -/
def tC2 : Template :=
  ⟨[], [], none, none, none, none, none, 0, 2, [[0]], false, 0⟩

/-- One RGBA pixel (four uint8 channels). -/
structure RGBA where
  r : Nat
  g : Nat
  b : Nat
  a : Nat
deriving DecidableEq

/-- An RGBA image as a numpy array of shape `height × width × 4`.
Only indexes with `y < height` and `x < width` are meaningful. -/
structure Image where
  height : Nat
  width : Nat
  pix : Nat → Nat → RGBA

/-- The inner double loop of `fast_detemplatize` for one output cell
`(y, x)`: scan the `b × b` source block row-major (`for j: for i:`) and
return the first sub-pixel whose alpha exceeds 128, with its alpha forced
to 255; if none qualifies, the cell keeps the `np.zeros` value (0,0,0,0).
The linear scan index `n` decomposes as `j = n / b`, `i = n % b`. -/
def blockScan (img : Image) (b y x : Nat) : RGBA :=
  match (List.range (b * b)).find?
      (fun n => decide (128 < (img.pix (y * b + n / b) (x * b + n % b)).a)) with
  | some n =>
    ⟨(img.pix (y * b + n / b) (x * b + n % b)).r,
     (img.pix (y * b + n / b) (x * b + n % b)).g,
     (img.pix (y * b + n / b) (x * b + n % b)).b, 255⟩
  | none => ⟨0, 0, 0, 0⟩

/-- `fast_detemplatize(array, true_height, true_width, block_size)`:
the decoded image of shape `true_height × true_width` whose cell `(y, x)`
is the block scan of the source block at `(y*block_size, x*block_size)`.
(The numpy result holds zeros outside its shape; our total `pix` function
extends it by the same scan formula, and no consumer reads there.) -/
def fastDetemplatize (img : Image) (trueH trueW b : Nat) : Image :=
  ⟨trueH, trueW, fun y x => blockScan img b y x⟩

/-- `detemplatize(img_raw, true_width)`: if `true_width <= 0` or the
inferred block size `img.width // true_width` equals 1, return the input
unchanged; otherwise decode with block size `W // tw` and
`true_height = H // block_size` (floor divisions, exactly as the source:
there is no divisibility check).  This total function is faithful only
when the inferred block size is at least 1: at block size 0 the source
raises ZeroDivisionError, which Nat division by zero cannot express, so
the fallible view `detemplatizeE` below carries that error path and is
the embedding the error-handling claims are settled against. -/
def detemplatize (img : Image) (tw : Int) : Image :=
  if tw ≤ 0 ∨ (img.width : Int) / tw = 1 then img
  else
    fastDetemplatize img (img.height / ((img.width : Int) / tw).toNat)
      tw.toNat ((img.width : Int) / tw).toNat

/-- The failure modes of decoding: `invalidTemplateImage` is the error
the specification assigns to a stylized image whose block size does not
evenly divide its dimensions; `zeroDivisionError` is the unstructured
ZeroDivisionError the source actually raises at
`true_height = img_raw.shape[0] // block_size` when the inferred block
size `W // tw` is 0 (target width larger than the image width). -/
inductive DecodeErr where
  | invalidTemplateImage
  | zeroDivisionError
deriving DecidableEq

/-- `detemplatize` viewed as a fallible operation, the authoritative
embedding of the source including its error path.  The body contains no
raise statement; its only failure is the division by zero just described.
When the inferred block size is at least 1 every array read of
`fast_detemplatize` is in bounds (`py ≤ (H//b)*b - 1 < H`,
`px ≤ tw*b - 1 = (W//tw)*tw - 1 < W`) and the decode returns `ok`
(the total `detemplatize` above agrees with it on that region). -/
def detemplatizeE (img : Image) (tw : Int) : Except DecodeErr Image :=
  if tw ≤ 0 ∨ (img.width : Int) / tw = 1 then Except.ok img
  else
    if ((img.width : Int) / tw).toNat = 0 then
      Except.error DecodeErr.zeroDivisionError
    else
      Except.ok (fastDetemplatize img
        (img.height / ((img.width : Int) / tw).toNat) tw.toNat
        ((img.width : Int) / tw).toNat)

/-- A fully opaque red 1×1 RGBA image (smaller than the 2-pixel target
width used against it). -/
def img1 : Image := ⟨1, 1, fun _ _ => ⟨255, 0, 0, 255⟩⟩

/-- A fully opaque red 5×5 RGBA image. -/
def img5 : Image := ⟨5, 5, fun _ _ => ⟨255, 0, 0, 255⟩⟩

/-- A fully opaque red 3×3 RGBA image. -/
def img3 : Image := ⟨3, 3, fun _ _ => ⟨255, 0, 0, 255⟩⟩

/-- The possible outcomes of `Template.get_eta` (in its `as_string=False`
form): `noData` is the `(None, None)` result, `done` the `(0, None)`
result, `never` the non-numeric "speed is zero" `(None, speed)` result,
and `eta hours speed` the numeric `(timedelta(hours=hours), speed)`
result.  Times are measured in hours, so `diff_time / timedelta(hours=1)`
is a plain subtraction.  The exact rationals stand in for Python floats:
all branch conditions of the source (equality with zero, sign tests) agree
between the two on the quantities involved. -/
inductive EtaResult where
  | noData
  | done
  | never (speed : ℚ)
  | eta (hours : ℚ) (speed : ℚ)
deriving DecidableEq

/-- `Template.get_eta()`: the two history samples (as returned by
`get_progress_at`: a `(timestamp, progress)` pair or `None`) are passed in
explicitly, as are the stored `total_placeable` and `current_progress` of
the template (the history store and database are external to the core).
Mirrors the source branch for branch: missing sample → no data; zero
remaining work → done; equal timestamps → no data; zero speed → the
non-numeric "Never" result; `togo / speed ≤ 0` → the substituted value
`now_progress / speed`; otherwise `togo / speed`. -/
def getEta (tp cp : ℚ) (old cur : Option (ℚ × ℚ)) : EtaResult :=
  match old, cur with
  | some (oldT, oldP), some (nowT, nowP) =>
    if tp - cp = 0 then EtaResult.done
    else if nowT - oldT = 0 then EtaResult.noData
    else if (nowP - oldP) / (nowT - oldT) = 0 then
      EtaResult.never ((nowP - oldP) / (nowT - oldT))
    else if (tp - cp) / ((nowP - oldP) / (nowT - oldT)) ≤ 0 then
      EtaResult.eta (nowP / ((nowP - oldP) / (nowT - oldT)))
        ((nowP - oldP) / (nowT - oldT))
    else
      EtaResult.eta ((tp - cp) / ((nowP - oldP) / (nowT - oldT)))
        ((nowP - oldP) / (nowT - oldT))
  | _, _ => EtaResult.noData

/-- Python truthiness of the `hidden` attribute, which starts as `None`
and is set to a bool when a template enters the tracker
(`if template.hidden:` is False both for `None` and for `False`). -/
def truthy : Option Bool → Bool
  | some b => b
  | none => false

/-- `name.lower()` on a name, modelled as a list of characters. -/
def lowerName (n : List Char) : List Char := n.map Char.toLower

/-- `name.lower() in ["@combo", "combo", "global"]`. -/
def reservedName (n : List Char) : Bool :=
  lowerName n == "@combo".toList || lowerName n == "combo".toList
    || lowerName n == "global".toList

/-- The in-memory `TemplateManager` state: the tracked template list and
the combo.  `comboVersion` counts the `update_combo()` calls, so that
"no combo recompute was triggered" is visible in the state (the recompute
itself is the `layer` function, embedded separately). -/
structure Manager where
  list : List Template
  combo : Option Template
  comboVersion : Nat
deriving DecidableEq

/-- `TemplateManager.get_template(name, owner_id, hidden)`: reserved names
resolve to the combo when it exists; otherwise scan the list for the first
template with the same lowercased name that is visible in the requested
scope (hidden: the owner's hidden template; otherwise any non-hidden
one). -/
def getTemplate (m : Manager) (name : List Char) (ownerId : Option Nat)
    (hid : Bool) : Option Template :=
  if reservedName name = true ∧ m.combo.isSome then m.combo
  else
    m.list.find? (fun temp =>
      (lowerName (temp.name.getD []) == lowerName name) &&
      (if hid then truthy temp.hidden && (temp.owner_id == ownerId)
       else !(truthy temp.hidden)))

/-- One character of the `^[A-Za-z0-9_-]*$` name pattern. -/
def validChar (c : Char) : Bool := c.isAlphanum || c == '-' || c == '_'

/-- `TemplateManager.check_valid_name(name)`: only letters, digits,
hyphen, underscore; length between 2 and 40; not a reserved name.
The source raises ValueError on violation; here a boolean validator. -/
def checkValidName (name : List Char) : Bool :=
  name.all validChar && decide (2 ≤ name.length) && decide (name.length ≤ 40)
    && !(reservedName name)

/-- The comparison inside `check_duplicate_template`: same array shape,
same array content, and same `(oy, ox)` origin. -/
def sameImageAndCoords (a b : Template) : Bool :=
  (a.height == b.height) && (a.width == b.width)
    && decide (∀ i < a.height, ∀ j < a.width, tval a i j = tval b i j)
    && (a.oy == b.oy) && (a.ox == b.ox)

/-- `TemplateManager.check_duplicate_template(template)`: search the
hidden templates of the same owner when the candidate is hidden, the
public templates otherwise, for the first one with the same image and
coordinates; `none` if there is no such template. -/
def checkDuplicateTemplate (m : Manager) (t : Template) : Option Template :=
  (if truthy t.hidden then
      m.list.filter (fun x => truthy x.hidden && (x.owner_id == t.owner_id))
    else
      m.list.filter (fun x => !(truthy x.hidden))).find?
    (fun x => sameImageAndCoords t x)

/-- The typed errors `TemplateManager.save` can raise (all ValueError in
the source, distinguished by message). -/
inductive SaveErr where
  | invalidName
  | base64Url
  | urlTooLong
  | duplicateName
  | duplicateTemplate
deriving DecidableEq

/-- `TemplateManager.save(template, name, owner, hidden)`: set the
metadata on the template, run the checks in source order (name validity,
base64 stylized URL, URL length, duplicate name in scope, duplicate
image+coords in scope), and only then persist (the database hands back
`newId`), append to the list and recompute the combo.  The result pairs
the raised error (or `none`) with the manager state after the call: every
check precedes the append, so each error leaves the state untouched. -/
def save (m : Manager) (t : Template) (name : List Char) (ownerId : Nat)
    (hid : Bool) (newId : Nat) : Option SaveErr × Manager :=
  let t1 : Template :=
    { t with name := some name, owner_id := some ownerId, hidden := some hid }
  if checkValidName name = false then (some SaveErr.invalidName, m)
  else if "data:image".toList.isPrefixOf t1.stylized_url then
    (some SaveErr.base64Url, m)
  else if 512 < t1.url.length then (some SaveErr.urlTooLong, m)
  else if (getTemplate m name (some ownerId) hid).isSome then
    (some SaveErr.duplicateName, m)
  else if (checkDuplicateTemplate m t1).isSome then
    (some SaveErr.duplicateTemplate, m)
  else
    (none, ⟨m.list ++ [{ t1 with id := some newId }], m.combo, m.comboVersion + 1⟩)

/-- A public template named "ab" owned by user 1, as stored. -/
def tEx : Template :=
  ⟨"u".toList, "s".toList, none, some "ab".toList, some 1, some false,
    some 1, 0, 0, [[1]], false, 0⟩

/-- A fresh template with a different image, about to be saved. -/
def tDupName : Template :=
  ⟨"u2".toList, "s2".toList, none, none, none, none, none, 0, 0, [[2]], false, 0⟩

/-- A fresh template with the same image and coordinates as `tEx`. -/
def tDupImage : Template :=
  ⟨"u3".toList, "s3".toList, none, none, none, none, none, 0, 0, [[1]], false, 0⟩

/-- A manager tracking only `tEx`. -/
def mgr7 : Manager := ⟨[tEx], none, 0⟩

/-- `np.pad(togo_mask, [(0, bottom_pad), (0, right_pad)])`: the mask
padded with False outside its `h × w` domain. -/
def paddedMask (h w : Nat) (mk : Nat → Nat → Bool) (y x : Nat) : Bool :=
  if y < h ∧ x < w then mk y x else false

/-- Number of chunk rows (or columns) after padding: the source pads a
dimension `d` by `chunk - d % chunk` (a full extra chunk when `chunk`
already divides `d`) and divides by the chunk size. -/
def nBlocks (d chunk : Nat) : Nat := (d + (chunk - d % chunk)) / chunk

/-- `np.sum(chunk)` for the chunk at chunk-row `cy`, chunk-column `cx` of
the padded mask: the number of true cells among the `chunk × chunk` cells
starting at `(cy*chunk, cx*chunk)`. -/
def chunkCount (h w chunk : Nat) (mk : Nat → Nat → Bool) (cy cx : Nat) : Nat :=
  maskCount chunk chunk
    (fun j i => paddedMask h w mk (cy * chunk + j) (cx * chunk + i))

/-- The count of the chunk with linear index `idx` in the row-major chunk
list produced by `to_chunks` (the reshape/swapaxes lays chunks out as
`idx = cy * nbX + cx`, so `np.unravel_index` recovers
`cy = idx / nbX`, `cx = idx % nbX`). -/
def chunkCountIdx (h w chunk : Nat) (mk : Nat → Nat → Bool) (idx : Nat) : Nat :=
  chunkCount h w chunk mk (idx / nBlocks w chunk) (idx % nBlocks w chunk)

/-- One iteration of the `fast_max_chunk` loop: replace the running
`(max_index, chunk_pixels)` state when the current count is strictly
greater. -/
def maxStep (counts : Nat → Nat) (s : Int × Nat) (i : Nat) : Int × Nat :=
  if s.2 < counts i then ((i : Int), counts i) else s

/-- `fast_max_chunk(chunked_mask)`: index of the first chunk attaining the
strictly maximal positive count, or -1 when every count is zero (the
running maximum starts at 0 and is only replaced on strict increase). -/
def fastMaxChunk (counts : Nat → Nat) (n : Nat) : Int :=
  ((List.range n).foldl (maxStep counts) (-1, 0)).1

/-- `Template.find_coords(chunk_size)` on a to-go mask of shape `h × w`
placed at origin `(ox, oy)`: pad the mask, chunk it, find the chunk with
the most pixels to place, and return the canvas coordinates of that
chunk's center (`(None, None)`, i.e. `none`, when every chunk count is
zero). -/
def findCoords (h w : Nat) (mk : Nat → Nat → Bool) (ox oy : Int)
    (chunk : Nat) : Option (Int × Int) :=
  let nbX := nBlocks w chunk
  let nbY := nBlocks h chunk
  let maxIdx := fastMaxChunk (chunkCountIdx h w chunk mk) (nbY * nbX)
  if maxIdx = -1 then none
  else
    some (((maxIdx.toNat % nbX) * chunk + chunk / 2 : Nat) + ox,
          ((maxIdx.toNat / nbX) * chunk + chunk / 2 : Nat) + oy)

/-- The to-go mask `np.logical_and(~self.placed_mask, self.placeable_mask)`
of a template under a given canvas snapshot. -/
def togoMask (t : Template) (placemap board : Arr) (i j : Nat) : Bool :=
  !(makePlacedMask t board (makePlaceableMask t placemap) i j)
    && makePlaceableMask t placemap i j

/-- `Template.find_coords` assembled for a template: the chunked scan of
its to-go mask, offset by its origin. -/
def templateFindCoords (t : Template) (placemap board : Arr)
    (chunk : Nat) : Option (Int × Int) :=
  findCoords t.height t.width (togoMask t placemap board) t.ox t.oy chunk

/-- The placement rectangle of the template contains canvas cell
`(y, x)`. -/
def covers (t : Template) (y x : Nat) : Prop :=
  t.oy ≤ (y : Int) ∧ (y : Int) < t.oy + t.height
    ∧ t.ox ≤ (x : Int) ∧ (x : Int) < t.ox + t.width

instance coversDec (t : Template) (y x : Nat) : Decidable (covers t y x) :=
  inferInstanceAs (Decidable (t.oy ≤ (y : Int) ∧ (y : Int) < t.oy + t.height
    ∧ t.ox ≤ (x : Int) ∧ (x : Int) < t.ox + t.width))

/-- The template pixel at canvas cell `(y, x)`:
`palettized_array[y - oy][x - ox]`. -/
def tvalAt (t : Template) (y x : Nat) : Nat :=
  tval t ((y : Int) - t.oy).toNat ((x : Int) - t.ox).toNat

/-- The template writes at canvas cell `(y, x)`: the cell lies in its
placement rectangle and the template pixel there is non-transparent. -/
def writes (t : Template) (y x : Nat) : Prop :=
  covers t y x ∧ tvalAt t y x ≠ 255

instance writesDec (t : Template) (y x : Nat) : Decidable (writes t y x) :=
  inferInstanceAs (Decidable (covers t y x ∧ tvalAt t y x ≠ 255))

/-- One iteration of the `layer` loop: crop the template to the canvas
(skipping it entirely when `crop_to_canvas` raises) and execute the masked
slice assignment
`background[oy : oy+arr.shape[0], ox : ox+arr.shape[1]][mask] = arr[mask]`
with `mask = arr != 255`: the cell `(y, x)` of the background is
overwritten with `arr[y - r.y][x - r.x]` exactly when it lies in the pasted
rectangle and that value is non-transparent. -/
def applyTemplate (H W : Nat) (bg : Nat → Nat → Nat) (t : Template) :
    Nat → Nat → Nat :=
  match cropToCanvas t H W with
  | none => bg
  | some r => fun y x =>
      if r.y ≤ y ∧ y < r.y + r.height ∧ r.x ≤ x ∧ x < r.x + r.width
          ∧ r.val (y - r.y) (x - r.x) ≠ 255 then
        r.val (y - r.y) (x - r.x)
      else bg y x

/-- The `layer` loop before the placemap step: start from a canvas-shaped
background full of 255 (`np.full_like(placemap, 255)`) and apply the
templates in list order. -/
def layerPre (H W : Nat) (ts : List Template) : Nat → Nat → Nat :=
  ts.foldl (applyTemplate H W) (fun _ _ => 255)

/-- `layer(templates, placemap)` (with `crop_to_template=False`, as the
combo builder calls it): the composite value of each canvas cell after the
final `background[placemap != 0] = 255` step.  The bounding-box values
also returned by the source are not modelled: the claims are about the
composite cell values. -/
def layer (ts : List Template) (placemap : Arr) : Nat → Nat → Nat :=
  fun y x =>
    if placemap.val y x ≠ 0 then 255 else layerPre placemap.h placemap.w ts y x

/-- A 1×1 template with palette index 3 at the canvas origin. -/
def tA : Template :=
  ⟨[], [], none, none, none, none, none, 0, 0, [[3]], false, 0⟩

/-- A 1×1 template with palette index 7 at the canvas origin. -/
def tB : Template :=
  ⟨[], [], none, none, none, none, none, 0, 0, [[7]], false, 0⟩

/-- A 1×1 placemap marking its only cell placeable (value 0). -/
def pmZero : Arr := ⟨1, 1, fun _ _ => 0⟩

/-- A 1×1 placemap marking its only cell non-placeable (sentinel 255). -/
def pmFull : Arr := ⟨1, 1, fun _ _ => 255⟩

/-- The typed errors `TemplateManager.update_template` can raise (all
ValueError in the source; the two database failure modes, an
IntegrityError and a falsy returned id, are merged into `dbFailed`). -/
inductive UpdErr where
  | notFound
  | forbidden
  | protectedEntity
  | base64Url
  | urlTooLong
  | outsideCanvas
  | noChange
  | duplicateImage
  | invalidName
  | duplicateName
  | dbFailed
deriving DecidableEq

/-- `TemplateManager.update_template(current_name, command_user, new_url,
new_name, new_owner)`.  External effects are passed in: `fetched` is the
template decoded from `new_url` by `get_template_from_url` (or `none` when
no new URL is given) and `dbResult` the id handed back by the database
update (`none` for either failure mode).  Python object identity between
a template found in the list and `old_temp` is modelled as structural
equality (stored templates carry distinct ids).  Mirrors the source in
order: lookup (hidden=False, so only non-hidden templates and the combo
are found), ownership check, combo protection, the new-source checks
(base64 URL, URL length, empty placeable area, duplicate image /
no-change), the new-name checks, the new-owner assignment, then
`new_temp.hidden = False`, the database update, and the in-place list
replacement (`index` / `remove` / `insert`) plus the combo recompute. -/
def updateTemplate (m : Manager) (currentName : List Char) (userId : Nat)
    (admins : List Nat) (fetched : Option Template)
    (newName : Option (List Char)) (newOwner : Option Nat)
    (dbResult : Option Nat) : Except UpdErr (Template × Template × Manager) :=
  match getTemplate m currentName (some userId) false with
  | none => Except.error UpdErr.notFound
  | some oldTemp =>
    if oldTemp.owner_id ≠ some userId ∧ userId ∉ admins then
      Except.error UpdErr.forbidden
    else if oldTemp.is_combo then Except.error UpdErr.protectedEntity
    else
      let step1 : Except UpdErr Template :=
        match fetched with
        | some nt =>
          if "data:image".toList.isPrefixOf nt.stylized_url then
            Except.error UpdErr.base64Url
          else if 512 < nt.url.length then Except.error UpdErr.urlTooLong
          else if nt.total_placeable = 0 then Except.error UpdErr.outsideCanvas
          else
            match checkDuplicateTemplate m nt with
            | some sameT =>
              if sameT = oldTemp then
                if sameT.title = nt.title ∧ sameT.stylized_url = nt.stylized_url
                then Except.error UpdErr.noChange
                else
                  Except.ok { nt with name := oldTemp.name, owner_id := oldTemp.owner_id, hidden := oldTemp.hidden, id := oldTemp.id }
              else Except.error UpdErr.duplicateImage
            | none =>
              Except.ok { nt with name := oldTemp.name, owner_id := oldTemp.owner_id, hidden := oldTemp.hidden, id := oldTemp.id }
        | none => Except.ok oldTemp
      match step1 with
      | Except.error e => Except.error e
      | Except.ok nt0 =>
        let step2 : Except UpdErr Template :=
          match newName with
          | some nn =>
            if checkValidName nn = false then Except.error UpdErr.invalidName
            else
              match getTemplate m nn none false with
              | some sameName =>
                if sameName ≠ oldTemp then Except.error UpdErr.duplicateName
                else Except.ok { nt0 with name := some nn }
              | none => Except.ok { nt0 with name := some nn }
          | none => Except.ok nt0
        match step2 with
        | Except.error e => Except.error e
        | Except.ok nt1 =>
          let nt2 : Template :=
            match newOwner with
            | some o => { nt1 with owner_id := some o }
            | none => nt1
          let nt3 : Template := { nt2 with hidden := some false }
          match dbResult with
          | none => Except.error UpdErr.dbFailed
          | some _ =>
            Except.ok (oldTemp, nt3,
              ⟨(m.list.eraseIdx (m.list.indexOf oldTemp)).insertIdx
                  (m.list.indexOf oldTemp) nt3,
                m.combo, m.comboVersion + 1⟩)

/-- The result of renaming `tEx` to "cd" through `update_template`: the
replacing template is public (`hidden = some false`). -/
def tExRenamed : Template :=
  ⟨"u".toList, "s".toList, none, some "cd".toList, some 1, some false,
    some 1, 0, 0, [[1]], false, 0⟩

theorem maskCount_mono (hgt wid : Nat) {m1 m2 : Nat → Nat → Bool}
    (h : ∀ i j, m1 i j = true → m2 i j = true) :
    maskCount hgt wid m1 ≤ maskCount hgt wid m2 := by
  apply Finset.card_le_card
  intro p hp
  rw [Finset.mem_filter] at hp ⊢
  exact ⟨hp.1, h _ _ hp.2⟩

/-- C1: for every template and every canvas snapshot (board and placemap),
the placed mask computed by `make_placed_mask` is a subset of the placeable
mask (pointwise, as booleans), and consequently the progress returned by
`update_progress` satisfies `0 ≤ progress ≤ total_placeable`. -/
theorem placed_subset_placeable_progress_bounded
    (t : Template) (placemap board : Arr) :
    (∀ i j, makePlacedMask t board (makePlaceableMask t placemap) i j
        ≤ makePlaceableMask t placemap i j)
    ∧ 0 ≤ currentProgress t placemap board
    ∧ currentProgress t placemap board ≤ totalPlaceable t placemap := by
  have hsub : ∀ i j,
      makePlacedMask t board (makePlaceableMask t placemap) i j = true →
      makePlaceableMask t placemap i j = true := by
    intro i j h
    rw [makePlacedMask, Bool.and_eq_true] at h
    exact h.2
  refine ⟨?_, Nat.zero_le _, maskCount_mono _ _ hsub⟩
  intro i j
  cases hp : makePlacedMask t board (makePlaceableMask t placemap) i j with
  | false => exact Bool.false_le _
  | true => exact le_of_eq (hsub i j hp).symm

theorem cropToCanvas_eq_none_iff (t : Template) (H W : Nat) :
    cropToCanvas t H W = none ↔ ((H : Int) < t.oy ∨ (W : Int) < t.ox) := by
  simp only [cropToCanvas]
  split
  case isTrue h => simp only [true_iff]; omega
  case isFalse h => simp only [reduceCtorEq, false_iff]; omega

/-- C2 counterexample: the 1×1 template at origin (0, 2) has no overlap
with a 2×2 canvas, yet `crop_to_canvas` does not raise: the source only
raises when `max(0, oy) > H or max(0, ox) > W`, and here `max(0, oy) = 2`
is not strictly greater than `H = 2`, so an empty crop is returned. -/
theorem cropToCanvas_outside_no_raise :
    ¬ overlaps tC2 2 2 ∧ (cropToCanvas tC2 2 2).isSome = true := by
  constructor
  · rintro ⟨y, hy, x, hx, h1, h2, h3, h4⟩
    have hoy : tC2.oy = 2 := rfl
    rw [hoy] at h1
    omega
  · rfl

/-- C2 (amended): `crop_to_canvas` raises exactly when the clamped origin
lies strictly beyond the canvas (`oy > H` or `ox > W`), which is strictly
weaker than "no overlap"; whenever the placement rectangle does overlap
the canvas, it returns the pixel grid clipped to the overlap together with
the clamped origin `(max(0,ox), max(0,oy))`: the returned rectangle is
exactly the intersection of the placement rectangle with the canvas, and
cell `(y, x)` of the canvas inside it receives template pixel
`(y - oy, x - ox)`. -/
theorem cropToCanvas_raise_iff_and_clips (t : Template) (H W : Nat) :
    (cropToCanvas t H W = none ↔ ((H : Int) < t.oy ∨ (W : Int) < t.ox))
    ∧ (overlaps t H W →
        ∃ r, cropToCanvas t H W = some r
          ∧ (r.y : Int) = max 0 t.oy
          ∧ (r.x : Int) = max 0 t.ox
          ∧ ((r.y + r.height : Nat) : Int) = min (H : Int) (t.oy + t.height)
          ∧ ((r.x + r.width : Nat) : Int) = min (W : Int) (t.ox + t.width)
          ∧ (∀ y x : Nat, r.y ≤ y → y < r.y + r.height → r.x ≤ x → x < r.x + r.width →
              r.val (y - r.y) (x - r.x)
                = tval t ((y : Int) - t.oy).toNat ((x : Int) - t.ox).toNat)) := by
  refine ⟨cropToCanvas_eq_none_iff t H W, ?_⟩
  rintro ⟨y', hy', x', hx', hoy1, hoy2, hox1, hox2⟩
  have hcond : ¬(t.oy.toNat > H ∨ t.ox.toNat > W) := by omega
  simp only [cropToCanvas, if_neg hcond]
  refine ⟨_, rfl, ?_, ?_, ?_, ?_, ?_⟩
  · simp only []
    omega
  · simp only []
    omega
  · simp only []
    by_cases hp : t.oy > 0
    · simp only [if_pos hp]
      split <;> omega
    · simp only [if_neg hp]
      split <;> omega
  · simp only []
    by_cases hp : t.ox > 0
    · simp only [if_pos hp]
      split <;> omega
    · simp only [if_neg hp]
      split <;> omega
  · intro y x hy1 hy2 hx1 hx2
    simp only [] at hy1 hy2 hx1 hx2 ⊢
    have e1 : (if t.oy > 0 then 0 else (-t.oy).toNat) + (y - t.oy.toNat)
        = ((y : Int) - t.oy).toNat := by
      by_cases hp : t.oy > 0
      · simp only [if_pos hp]; omega
      · simp only [if_neg hp]; omega
    have e2 : (if t.ox > 0 then 0 else (-t.ox).toNat) + (x - t.ox.toNat)
        = ((x : Int) - t.ox).toNat := by
      by_cases hp : t.ox > 0
      · simp only [if_pos hp]; omega
      · simp only [if_neg hp]; omega
    rw [e1, e2]

/-- Witness for the amended C2 theorem: a 1×1 template at the canvas
origin of a 2×2 canvas overlaps the canvas, so the crop succeeds. -/
theorem cropToCanvas_raise_iff_and_clips_witness :
    ∃ r, cropToCanvas ⟨[], [], none, none, none, none, none, 0, 0, [[0]], false, 0⟩ 2 2 = some r
      ∧ (r.y : Int) = max 0 (0 : Int) := by
  obtain ⟨r, h1, h2, -⟩ :=
    (cropToCanvas_raise_iff_and_clips
      ⟨[], [], none, none, none, none, none, 0, 0, [[0]], false, 0⟩ 2 2).2
      ⟨0, by omega, 0, by omega, by decide, by decide, by decide, by decide⟩
  exact ⟨r, h1, h2⟩

/-- C3 counterexample: for the 5×5 image with target width 2, the inferred
block size is `5 // 2 = 2`, which does not divide 5; yet `detemplatize`
does not fail: it silently returns a (truncated) 2×2 grid.  The source
never raises InvalidTemplateImage for a non-dividing block size. -/
theorem detemplatize_nondividing_no_error :
    ((img5.width : Int) / 2).toNat = 2 ∧ ¬((2 : Nat) ∣ 5)
    ∧ detemplatizeE img5 2 ≠ Except.error DecodeErr.invalidTemplateImage
    ∧ (detemplatizeE img5 2).isOk = true
    ∧ (detemplatize img5 2).height = 2 ∧ (detemplatize img5 2).width = 2 := by
  exact ⟨rfl, by decide, fun h => Except.noConfusion h, rfl, rfl, rfl⟩

/-- C3 (amended): decode never fails with InvalidTemplateImage, on any
input.  When the inferred block size `W // tw` is at least 2 it silently
succeeds: the result is the floor-division decode of dimensions
`(H // (W // tw)) × tw`, even when the block size does not evenly divide
the image dimensions (the right and bottom remainders are dropped).  The
only failure is the unstructured ZeroDivisionError raised at
`H // block_size` when the inferred block size is 0 (positive target
width larger than the image width). -/
theorem detemplatizeE_never_invalid (img : Image) (tw : Int) :
    detemplatizeE img tw ≠ Except.error DecodeErr.invalidTemplateImage
    ∧ (0 < tw → 2 ≤ (img.width : Int) / tw →
        detemplatizeE img tw = Except.ok (detemplatize img tw)
        ∧ (detemplatize img tw).height
            = img.height / ((img.width : Int) / tw).toNat
        ∧ (detemplatize img tw).width = tw.toNat)
    ∧ (0 < tw → (img.width : Int) / tw = 0 →
        detemplatizeE img tw = Except.error DecodeErr.zeroDivisionError) := by
  refine ⟨?_, ?_, ?_⟩
  · simp only [detemplatizeE]
    split
    · exact fun h => Except.noConfusion h
    · split
      · intro h
        injection h with h1
        exact DecodeErr.noConfusion h1
      · exact fun h => Except.noConfusion h
  · intro h1 h2
    have hg : ¬(tw ≤ 0 ∨ (img.width : Int) / tw = 1) := by omega
    have hb : ¬(((img.width : Int) / tw).toNat = 0) := by omega
    refine ⟨?_, ?_, ?_⟩
    · simp only [detemplatizeE, if_neg hg, if_neg hb, detemplatize]
    · simp only [detemplatize, if_neg hg, fastDetemplatize]
    · simp only [detemplatize, if_neg hg, fastDetemplatize]
  · intro h1 h2
    have hg : ¬(tw ≤ 0 ∨ (img.width : Int) / tw = 1) := by omega
    have hb : ((img.width : Int) / tw).toNat = 0 := by omega
    simp only [detemplatizeE, if_neg hg, if_pos hb]

/-- Witness for the amended C3 theorem: the 5×5 image with target width 2
(block size 2) silently decodes, and the 1×1 image with target width 2
(block size 0) hits the division-by-zero failure. -/
theorem detemplatizeE_never_invalid_witness :
    detemplatizeE img5 2 = Except.ok (detemplatize img5 2)
    ∧ detemplatizeE img1 2 = Except.error DecodeErr.zeroDivisionError :=
  ⟨((detemplatizeE_never_invalid img5 2).2.1 (by decide) (by decide)).1,
   (detemplatizeE_never_invalid img1 2).2.2 (by decide) (by decide)⟩

/-- C4: whenever the inferred block size `img.width // true_width` equals
1, `detemplatize` returns its input unchanged: decoding is the identity on
already-unstyled images. -/
theorem detemplatize_identity_block_one (img : Image) (tw : Int)
    (h : (img.width : Int) / tw = 1) : detemplatize img tw = img := by
  simp only [detemplatize, if_pos (Or.inr h)]

/-- Witness for C4: the 3×3 image with target width 2 has inferred block
size `3 // 2 = 1` and is returned unchanged. -/
theorem detemplatize_identity_block_one_witness :
    ((img3.width : Int) / 2 = 1) ∧ detemplatize img3 2 = img3 :=
  ⟨by decide, detemplatize_identity_block_one img3 2 (by decide)⟩

/-- C5 counterexample: template with `total_placeable = 10`,
`current_progress = 4` (so remaining work 6 > 0), samples progress 6 at
hour 0 and progress 4 at hour 1 (speed = -2 < 0).  The claim predicts
`(total_placeable - progress) / speed = -3` hours; the source instead
substitutes `now_progress / speed = 4 / -2 = -2` hours in its
`eta <= 0` branch. -/
theorem getEta_negative_speed_counterexample :
    getEta 10 4 (some (0, 6)) (some (1, 4)) = EtaResult.eta (-2) (-2)
    ∧ ((10 : ℚ) - 4) / (((4 : ℚ) - 6) / ((1 : ℚ) - 0)) = -3
    ∧ EtaResult.eta (-2 : ℚ) (-2) ≠ EtaResult.eta (-3 : ℚ) (-2) := by
  refine ⟨?_, by norm_num, ?_⟩
  · simp only [getEta]
    norm_num
  · intro h
    injection h with h1 h2
    exact absurd h1 (by norm_num)

/-- C5 (amended): with two samples of negative speed and positive
remaining work, `get_eta` returns a signed negative number of hours, but
the value is `now_progress / speed` (the source substitutes it when
`togo / speed ≤ 0`), not `(total_placeable - progress) / speed`. -/
theorem getEta_negative_speed_substitutes (tp cp oldT oldP nowT nowP : ℚ)
    (hTogo : 0 < tp - cp)
    (hSpeed : (nowP - oldP) / (nowT - oldT) < 0) :
    getEta tp cp (some (oldT, oldP)) (some (nowT, nowP))
      = EtaResult.eta (nowP / ((nowP - oldP) / (nowT - oldT)))
          ((nowP - oldP) / (nowT - oldT)) := by
  have hdt : ¬(nowT - oldT = 0) := by
    intro h
    rw [h, div_zero] at hSpeed
    exact lt_irrefl 0 hSpeed
  have hsp : ¬((nowP - oldP) / (nowT - oldT) = 0) := ne_of_lt hSpeed
  have heta : (tp - cp) / ((nowP - oldP) / (nowT - oldT)) ≤ 0 :=
    le_of_lt (div_neg_of_pos_of_neg hTogo hSpeed)
  simp only [getEta]
  rw [if_neg (ne_of_gt hTogo), if_neg hdt, if_neg hsp, if_pos heta]

/-- Witness for the amended C5 theorem at the concrete inputs of the
counterexample. -/
theorem getEta_negative_speed_substitutes_witness :
    getEta 10 4 (some (0, 6)) (some (1, 4))
      = EtaResult.eta (4 / (((4 : ℚ) - 6) / ((1 : ℚ) - 0)))
          (((4 : ℚ) - 6) / ((1 : ℚ) - 0)) :=
  getEta_negative_speed_substitutes 10 4 0 6 1 4 (by norm_num) (by norm_num)

/-- C6: with two samples at distinct timestamps carrying equal progress
(speed exactly zero) and nonzero remaining work, `get_eta` returns the
distinct non-numeric "speed is zero" result (`("Never™️", 0)` in the
source), and in particular no numeric ETA and no division by zero. -/
theorem getEta_zero_speed_not_numeric (tp cp oldT oldP nowT nowP : ℚ)
    (hTogo : tp - cp ≠ 0) (hdt : nowT - oldT ≠ 0) (hp : nowP = oldP) :
    getEta tp cp (some (oldT, oldP)) (some (nowT, nowP)) = EtaResult.never 0
    ∧ ∀ hrs sp, getEta tp cp (some (oldT, oldP)) (some (nowT, nowP))
        ≠ EtaResult.eta hrs sp := by
  have hs : (nowP - oldP) / (nowT - oldT) = 0 := by
    rw [hp, sub_self, zero_div]
  have hmain : getEta tp cp (some (oldT, oldP)) (some (nowT, nowP))
      = EtaResult.never 0 := by
    simp only [getEta]
    rw [if_neg hTogo, if_neg hdt, if_pos hs, hs]
  refine ⟨hmain, fun hrs sp h => ?_⟩
  rw [hmain] at h
  exact EtaResult.noConfusion h

/-- Witness for C6: samples `(t - 7d, 100)` and `(t, 100)` (7 days = 168
hours apart, no progress change) on a template with remaining work 6. -/
theorem getEta_zero_speed_not_numeric_witness :
    getEta 10 4 (some (0, 100)) (some (168, 100)) = EtaResult.never 0 :=
  (getEta_zero_speed_not_numeric 10 4 0 100 168 100 (by norm_num) (by norm_num) rfl).1

/-- C7: saving a template whose name already exists in the applicable
scope fails with the duplicate-name error, and saving one whose pixel
grid and origin coincide with an existing template in scope fails with
the duplicate-template error; in both cases the returned manager state is
the input state unchanged: no element is appended to the list and the
combo recompute counter is untouched (atomic check-then-insert). -/
theorem save_duplicate_fails_atomically (m : Manager) (t : Template)
    (name : List Char) (ownerId : Nat) (hid : Bool) (newId : Nat)
    (hName : checkValidName name = true)
    (hUrl1 : "data:image".toList.isPrefixOf t.stylized_url = false)
    (hUrl2 : t.url.length ≤ 512) :
    ((getTemplate m name (some ownerId) hid).isSome = true →
        save m t name ownerId hid newId = (some SaveErr.duplicateName, m))
    ∧ ((getTemplate m name (some ownerId) hid).isSome = false →
        (checkDuplicateTemplate m
            { t with name := some name, owner_id := some ownerId,
                     hidden := some hid }).isSome = true →
        save m t name ownerId hid newId = (some SaveErr.duplicateTemplate, m)) := by
  have h1 : ¬(checkValidName name = false) := by simp [hName]
  constructor
  · intro hdup
    simp only [save]
    rw [if_neg h1, if_neg (by rw [hUrl1]; exact fun h => Bool.noConfusion h),
      if_neg (by omega), if_pos hdup]
  · intro hnodup hdup
    simp only [save]
    rw [if_neg h1, if_neg (by rw [hUrl1]; exact fun h => Bool.noConfusion h),
      if_neg (by omega), if_neg (by rw [hnodup]; exact fun h => Bool.noConfusion h),
      if_pos hdup]

/-- Witness for C7: the manager tracking the public template "ab" (image
`[[1]]` at the origin) rejects a save reusing the name "ab" with the
duplicate-name error, and a save of the same image and coordinates under
the fresh name "cd" with the duplicate-template error, both leaving the
state unchanged. -/
theorem save_duplicate_fails_atomically_witness :
    save mgr7 tDupName "ab".toList 1 false 5 = (some SaveErr.duplicateName, mgr7)
    ∧ save mgr7 tDupImage "cd".toList 1 false 5
        = (some SaveErr.duplicateTemplate, mgr7) :=
  ⟨(save_duplicate_fails_atomically mgr7 tDupName "ab".toList 1 false 5
      (by decide) (by decide) (by decide)).1 (by decide),
   (save_duplicate_fails_atomically mgr7 tDupImage "cd".toList 1 false 5
      (by decide) (by decide) (by decide)).2 (by decide) (by decide)⟩

theorem maskCount_pos (hgt wid : Nat) (m : Nat → Nat → Bool) (i j : Nat)
    (hi : i < hgt) (hj : j < wid) (hm : m i j = true) :
    0 < maskCount hgt wid m := by
  apply Finset.card_pos.mpr
  exact ⟨(i, j), Finset.mem_filter.mpr
    ⟨Finset.mem_product.mpr ⟨Finset.mem_range.mpr hi, Finset.mem_range.mpr hj⟩, hm⟩⟩

theorem maskCount_eq_zero (hgt wid : Nat) (m : Nat → Nat → Bool)
    (h0 : ∀ i j, i < hgt → j < wid → m i j = false) :
    maskCount hgt wid m = 0 := by
  rw [maskCount, Finset.card_eq_zero, Finset.filter_eq_empty_iff]
  rintro ⟨i, j⟩ hp
  rw [Finset.mem_product, Finset.mem_range, Finset.mem_range] at hp
  rw [h0 i j hp.1 hp.2]
  exact fun hh => Bool.noConfusion hh

theorem nBlocks_eq (d chunk : Nat) (hc : 0 < chunk) :
    nBlocks d chunk = d / chunk + 1 := by
  have h2 := Nat.div_add_mod d chunk
  have h3 : d % chunk < chunk := Nat.mod_lt d hc
  have key : d + (chunk - d % chunk) = chunk * (d / chunk + 1) := by
    calc d + (chunk - d % chunk)
        = chunk * (d / chunk) + d % chunk + (chunk - d % chunk) := by rw [h2]
      _ = chunk * (d / chunk) + (d % chunk + (chunk - d % chunk)) := by
          rw [Nat.add_assoc]
      _ = chunk * (d / chunk) + chunk := by
          rw [Nat.add_sub_cancel' (le_of_lt h3)]
      _ = chunk * (d / chunk + 1) := by rw [Nat.mul_add, Nat.mul_one]
  rw [nBlocks, key, Nat.mul_div_cancel_left _ hc]

theorem div_of_base (cy a chunk : Nat) (hc : 0 < chunk) (ha : a < chunk) :
    (cy * chunk + a) / chunk = cy := by
  rw [Nat.add_comm, Nat.mul_comm, Nat.add_mul_div_left a cy hc,
    Nat.div_eq_of_lt ha, Nat.zero_add]

theorem mod_of_base (cy a chunk : Nat) (ha : a < chunk) :
    (cy * chunk + a) % chunk = a := by
  rw [Nat.add_comm, Nat.mul_comm, Nat.add_mul_mod_self_left, Nat.mod_eq_of_lt ha]

theorem foldl_maxStep_inv (counts : Nat → Nat) (n : Nat) :
    ((List.range n).foldl (maxStep counts) (-1, 0) = ((-1 : Int), 0)
        ∧ ∀ i < n, counts i = 0)
    ∨ (∃ mm : Nat,
        ((List.range n).foldl (maxStep counts) (-1, 0)).1 = (mm : Int)
        ∧ ((List.range n).foldl (maxStep counts) (-1, 0)).2 = counts mm
        ∧ mm < n ∧ 0 < counts mm
        ∧ (∀ i < n, counts i ≤ counts mm)
        ∧ (∀ j < mm, counts j < counts mm)) := by
  induction n with
  | zero =>
    left
    exact ⟨rfl, fun i hi => absurd hi (Nat.not_lt_zero i)⟩
  | succ k ih =>
    rw [List.range_succ, List.foldl_append, List.foldl_cons, List.foldl_nil]
    rcases ih with ⟨hs0, hall⟩ | ⟨mm, h1, h2, h3, h4, h5, h6⟩
    · rw [hs0]
      by_cases hck : (0 : Nat) < counts k
      · right
        refine ⟨k, ?_, ?_, Nat.lt_succ_self k, hck, ?_, ?_⟩
        · rw [maxStep, if_pos hck]
        · rw [maxStep, if_pos hck]
        · intro i hi
          rcases Nat.lt_succ_iff_lt_or_eq.mp hi with hlt | heq
          · rw [hall i hlt]; exact Nat.zero_le _
          · subst heq; exact le_refl _
        · intro j hj
          rw [hall j hj]; exact hck
      · left
        constructor
        · rw [maxStep, if_neg hck]
        · intro i hi
          rcases Nat.lt_succ_iff_lt_or_eq.mp hi with hlt | heq
          · exact hall i hlt
          · subst heq; omega
    · by_cases hck : ((List.range k).foldl (maxStep counts) (-1, 0)).2 < counts k
      · right
        rw [h2] at hck
        refine ⟨k, ?_, ?_, Nat.lt_succ_self k, Nat.lt_of_le_of_lt (Nat.zero_le _) hck,
          ?_, ?_⟩
        · rw [maxStep, if_pos (h2 ▸ hck)]
        · rw [maxStep, if_pos (h2 ▸ hck)]
        · intro i hi
          rcases Nat.lt_succ_iff_lt_or_eq.mp hi with hlt | heq
          · exact le_of_lt (Nat.lt_of_le_of_lt (h5 i hlt) hck)
          · subst heq; exact le_refl _
        · intro j hj
          exact Nat.lt_of_le_of_lt (h5 j hj) hck
      · right
        rw [h2] at hck
        refine ⟨mm, ?_, ?_, Nat.lt_succ_of_lt h3, h4, ?_, h6⟩
        · rw [maxStep, if_neg (h2 ▸ hck)]; exact h1
        · rw [maxStep, if_neg (h2 ▸ hck)]; exact h2
        · intro i hi
          rcases Nat.lt_succ_iff_lt_or_eq.mp hi with hlt | heq
          · exact h5 i hlt
          · subst heq; omega

theorem fastMaxChunk_eq_neg_one_iff (counts : Nat → Nat) (n : Nat) :
    fastMaxChunk counts n = -1 ↔ ∀ i < n, counts i = 0 := by
  rcases foldl_maxStep_inv counts n with ⟨hs0, hall⟩ | ⟨mm, h1, h2, h3, h4, h5, h6⟩
  · rw [fastMaxChunk, hs0]
    exact iff_of_true rfl hall
  · rw [fastMaxChunk]
    constructor
    · intro heq
      rw [h1] at heq
      exact absurd heq (by omega)
    · intro hz
      exact absurd (hz mm h3) (by omega)

theorem fastMaxChunk_argmax (counts : Nat → Nat) (n : Nat)
    (hne : ¬ fastMaxChunk counts n = -1) :
    ∃ mm : Nat, fastMaxChunk counts n = (mm : Int)
      ∧ mm < n ∧ 0 < counts mm
      ∧ (∀ i < n, counts i ≤ counts mm)
      ∧ (∀ j < mm, counts j < counts mm) := by
  rcases foldl_maxStep_inv counts n with ⟨hs0, _⟩ | ⟨mm, h1, _, h3, h4, h5, h6⟩
  · exact absurd (by rw [fastMaxChunk, hs0]) hne
  · exact ⟨mm, h1, h3, h4, h5, h6⟩

/-- C8: for every to-go mask and positive chunk size, `find_coords`
returns no location exactly when every chunk count is zero; a returned
location is the origin-offset center of the chunk with the strictly
maximal count, the first such chunk in row-major scan order; and a mask
with a single true cell yields the center of the chunk containing that
cell. -/
theorem find_coords_hot_cell (h w : Nat) (mk : Nat → Nat → Bool)
    (ox oy : Int) (chunk : Nat) (hc : 0 < chunk) :
    (findCoords h w mk ox oy chunk = none ↔
      ∀ idx < nBlocks h chunk * nBlocks w chunk,
        chunkCountIdx h w chunk mk idx = 0)
    ∧ (∀ p, findCoords h w mk ox oy chunk = some p →
        ∃ idx, idx < nBlocks h chunk * nBlocks w chunk
          ∧ 0 < chunkCountIdx h w chunk mk idx
          ∧ (∀ j < nBlocks h chunk * nBlocks w chunk,
              chunkCountIdx h w chunk mk j ≤ chunkCountIdx h w chunk mk idx)
          ∧ (∀ j < idx,
              chunkCountIdx h w chunk mk j < chunkCountIdx h w chunk mk idx)
          ∧ p = (((idx % nBlocks w chunk) * chunk + chunk / 2 : Nat) + ox,
                 ((idx / nBlocks w chunk) * chunk + chunk / 2 : Nat) + oy))
    ∧ (∀ r c, r < h → c < w → mk r c = true →
        (∀ y x, y < h → x < w → mk y x = true → y = r ∧ x = c) →
        findCoords h w mk ox oy chunk
          = some (((c / chunk) * chunk + chunk / 2 : Nat) + ox,
                  ((r / chunk) * chunk + chunk / 2 : Nat) + oy)) := by
  have hpart1 : findCoords h w mk ox oy chunk = none ↔
      ∀ idx < nBlocks h chunk * nBlocks w chunk,
        chunkCountIdx h w chunk mk idx = 0 := by
    simp only [findCoords]
    by_cases hm : fastMaxChunk (chunkCountIdx h w chunk mk)
        (nBlocks h chunk * nBlocks w chunk) = -1
    · rw [if_pos hm]
      exact iff_of_true rfl ((fastMaxChunk_eq_neg_one_iff _ _).mp hm)
    · rw [if_neg hm]
      exact iff_of_false (fun hh => Option.noConfusion hh)
        (fun hall => hm ((fastMaxChunk_eq_neg_one_iff _ _).mpr hall))
  have hpart2 : ∀ p, findCoords h w mk ox oy chunk = some p →
      ∃ idx, idx < nBlocks h chunk * nBlocks w chunk
        ∧ 0 < chunkCountIdx h w chunk mk idx
        ∧ (∀ j < nBlocks h chunk * nBlocks w chunk,
            chunkCountIdx h w chunk mk j ≤ chunkCountIdx h w chunk mk idx)
        ∧ (∀ j < idx,
            chunkCountIdx h w chunk mk j < chunkCountIdx h w chunk mk idx)
        ∧ p = (((idx % nBlocks w chunk) * chunk + chunk / 2 : Nat) + ox,
               ((idx / nBlocks w chunk) * chunk + chunk / 2 : Nat) + oy) := by
    intro p hp
    simp only [findCoords] at hp
    by_cases hm : fastMaxChunk (chunkCountIdx h w chunk mk)
        (nBlocks h chunk * nBlocks w chunk) = -1
    · rw [if_pos hm] at hp
      exact absurd hp (fun hh => Option.noConfusion hh)
    · rw [if_neg hm] at hp
      obtain ⟨mm, hmm, hlt, hposc, hmax, hfirst⟩ := fastMaxChunk_argmax _ _ hm
      refine ⟨mm, hlt, hposc, hmax, hfirst, ?_⟩
      rw [hmm, Int.toNat_natCast] at hp
      injection hp with hq
      exact hq.symm
  refine ⟨hpart1, hpart2, ?_⟩
  intro r c hr hwc hmk huniq
  have hnbX : nBlocks w chunk = w / chunk + 1 := nBlocks_eq w chunk hc
  have hnbY : nBlocks h chunk = h / chunk + 1 := nBlocks_eq h chunk hc
  have hnbXpos : 0 < nBlocks w chunk := by rw [hnbX]; exact Nat.succ_pos _
  have hcx : c / chunk < nBlocks w chunk := by
    rw [hnbX]
    exact Nat.lt_succ_of_le (Nat.div_le_div_right (le_of_lt hwc))
  have hcy : r / chunk < nBlocks h chunk := by
    rw [hnbY]
    exact Nat.lt_succ_of_le (Nat.div_le_div_right (le_of_lt hr))
  have hdiv : ((r / chunk) * nBlocks w chunk + c / chunk) / nBlocks w chunk
      = r / chunk := div_of_base _ _ _ hnbXpos hcx
  have hmod : ((r / chunk) * nBlocks w chunk + c / chunk) % nBlocks w chunk
      = c / chunk := mod_of_base _ _ _ hcx
  have hidxlt : (r / chunk) * nBlocks w chunk + c / chunk
      < nBlocks h chunk * nBlocks w chunk := by
    calc (r / chunk) * nBlocks w chunk + c / chunk
        < (r / chunk) * nBlocks w chunk + nBlocks w chunk :=
          Nat.add_lt_add_left hcx _
      _ = (r / chunk + 1) * nBlocks w chunk := (Nat.succ_mul _ _).symm
      _ ≤ nBlocks h chunk * nBlocks w chunk :=
          Nat.mul_le_mul_right _ hcy
  have er : (r / chunk) * chunk + r % chunk = r := by
    rw [Nat.mul_comm]; exact Nat.div_add_mod r chunk
  have ec : (c / chunk) * chunk + c % chunk = c := by
    rw [Nat.mul_comm]; exact Nat.div_add_mod c chunk
  have hcountpos :
      0 < chunkCountIdx h w chunk mk
        ((r / chunk) * nBlocks w chunk + c / chunk) := by
    rw [chunkCountIdx, hdiv, hmod, chunkCount]
    apply maskCount_pos chunk chunk _ (r % chunk) (c % chunk)
      (Nat.mod_lt _ hc) (Nat.mod_lt _ hc)
    show paddedMask h w mk ((r / chunk) * chunk + r % chunk)
        ((c / chunk) * chunk + c % chunk) = true
    rw [er, ec]
    simp only [paddedMask, if_pos (And.intro hr hwc)]
    exact hmk
  have hcount0 : ∀ j, j < nBlocks h chunk * nBlocks w chunk →
      j ≠ (r / chunk) * nBlocks w chunk + c / chunk →
      chunkCountIdx h w chunk mk j = 0 := by
    intro j hj hne
    rw [chunkCountIdx, chunkCount]
    apply maskCount_eq_zero
    intro a b ha hb
    simp only [paddedMask]
    split
    case isTrue hin =>
      cases hmv : mk ((j / nBlocks w chunk) * chunk + a)
          ((j % nBlocks w chunk) * chunk + b) with
      | false => rfl
      | true =>
        exfalso
        obtain ⟨hyr, hxc⟩ := huniq _ _ hin.1 hin.2 hmv
        apply hne
        have e1 : j / nBlocks w chunk = r / chunk := by
          rw [← hyr, div_of_base _ _ _ hc ha]
        have e2 : j % nBlocks w chunk = c / chunk := by
          rw [← hxc, div_of_base _ _ _ hc hb]
        have e3 : j = (j / nBlocks w chunk) * nBlocks w chunk
            + j % nBlocks w chunk := by
          rw [Nat.mul_comm]
          exact (Nat.div_add_mod j (nBlocks w chunk)).symm
        rw [e3, e1, e2]
    case isFalse hout => rfl
  have hnotnone : ¬ findCoords h w mk ox oy chunk = none := by
    rw [hpart1]
    intro hall
    have hzero := hall _ hidxlt
    omega
  obtain ⟨p, hp⟩ := Option.ne_none_iff_exists'.mp hnotnone
  obtain ⟨idx, hlt, hpos, hmax, hfirst, hpe⟩ := hpart2 p hp
  have hidx_eq : idx = (r / chunk) * nBlocks w chunk + c / chunk := by
    by_contra hneq
    rw [hcount0 idx hlt hneq] at hpos
    exact Nat.lt_irrefl 0 hpos
  rw [hp, hpe, hidx_eq, hdiv, hmod]

/-- Witness for C8: the 1×1 all-true mask at the origin with chunk size
10 locates the center of chunk (0, 0), namely canvas cell (5, 5). -/
theorem find_coords_hot_cell_witness :
    findCoords 1 1 (fun _ _ => true) 0 0 10
      = some ((((0 / 10) * 10 + 10 / 2 : Nat) : Int) + 0,
              (((0 / 10) * 10 + 10 / 2 : Nat) : Int) + 0) :=
  (find_coords_hot_cell 1 1 (fun _ _ => true) 0 0 10 (by decide)).2.2
    0 0 (by decide) (by decide) rfl
    (fun y x hy hx _ => ⟨Nat.lt_one_iff.mp hy, Nat.lt_one_iff.mp hx⟩)

set_option maxHeartbeats 1600000 in
theorem applyTemplate_eq (H W : Nat) (bg : Nat → Nat → Nat) (t : Template)
    (y x : Nat) (hy : y < H) (hx : x < W) :
    applyTemplate H W bg t y x
      = if writes t y x then tvalAt t y x else bg y x := by
  by_cases hcnd : t.oy.toNat > H ∨ t.ox.toNat > W
  · have hnone : cropToCanvas t H W = none := by
      rw [cropToCanvas_eq_none_iff]
      omega
    have hnow : ¬ writes t y x := by
      rintro ⟨hcv, -⟩
      rw [covers] at hcv
      omega
    simp only [applyTemplate, hnone]
    rw [if_neg hnow]
  · simp only [applyTemplate, cropToCanvas, if_neg hcnd, writes, covers, tvalAt]
    rcases le_or_lt t.oy 0 with hoy | hoy <;> rcases le_or_lt t.ox 0 with hox | hox
    · simp only [if_neg (not_lt.mpr hoy), if_neg (not_lt.mpr hox)]
      have eY : (-t.oy).toNat + (y - t.oy.toNat) = ((y : Int) - t.oy).toNat := by
        omega
      have eX : (-t.ox).toNat + (x - t.ox.toNat) = ((x : Int) - t.ox).toNat := by
        omega
      rw [eY, eX]
      have hH : t.oy.toNat +
          (if t.oy.toNat + (t.height - (-t.oy).toNat) > H
            then H - t.oy.toNat else t.height - (-t.oy).toNat)
          = min H (t.oy.toNat + (t.height - (-t.oy).toNat)) := by
        split <;> omega
      have hW : t.ox.toNat +
          (if t.ox.toNat + (t.width - (-t.ox).toNat) > W
            then W - t.ox.toNat else t.width - (-t.ox).toNat)
          = min W (t.ox.toNat + (t.width - (-t.ox).toNat)) := by
        split <;> omega
      rw [hH, hW]
      refine if_congr ?_ rfl rfl
      constructor
      · rintro ⟨h1, h2, h3, h4, h5⟩
        exact ⟨⟨by omega, by omega, by omega, by omega⟩, h5⟩
      · rintro ⟨⟨h1, h2, h3, h4⟩, h5⟩
        exact ⟨by omega, by omega, by omega, by omega, h5⟩
    · simp only [if_neg (not_lt.mpr hoy), if_pos hox]
      have eY : (-t.oy).toNat + (y - t.oy.toNat) = ((y : Int) - t.oy).toNat := by
        omega
      have eX : 0 + (x - t.ox.toNat) = ((x : Int) - t.ox).toNat := by
        omega
      rw [eY, eX]
      have hH : t.oy.toNat +
          (if t.oy.toNat + (t.height - (-t.oy).toNat) > H
            then H - t.oy.toNat else t.height - (-t.oy).toNat)
          = min H (t.oy.toNat + (t.height - (-t.oy).toNat)) := by
        split <;> omega
      have hW : t.ox.toNat +
          (if t.ox.toNat + (t.width - 0) > W
            then W - t.ox.toNat else t.width - 0)
          = min W (t.ox.toNat + (t.width - 0)) := by
        split <;> omega
      rw [hH, hW]
      refine if_congr ?_ rfl rfl
      constructor
      · rintro ⟨h1, h2, h3, h4, h5⟩
        exact ⟨⟨by omega, by omega, by omega, by omega⟩, h5⟩
      · rintro ⟨⟨h1, h2, h3, h4⟩, h5⟩
        exact ⟨by omega, by omega, by omega, by omega, h5⟩
    · simp only [if_pos hoy, if_neg (not_lt.mpr hox)]
      have eY : 0 + (y - t.oy.toNat) = ((y : Int) - t.oy).toNat := by
        omega
      have eX : (-t.ox).toNat + (x - t.ox.toNat) = ((x : Int) - t.ox).toNat := by
        omega
      rw [eY, eX]
      have hH : t.oy.toNat +
          (if t.oy.toNat + (t.height - 0) > H
            then H - t.oy.toNat else t.height - 0)
          = min H (t.oy.toNat + (t.height - 0)) := by
        split <;> omega
      have hW : t.ox.toNat +
          (if t.ox.toNat + (t.width - (-t.ox).toNat) > W
            then W - t.ox.toNat else t.width - (-t.ox).toNat)
          = min W (t.ox.toNat + (t.width - (-t.ox).toNat)) := by
        split <;> omega
      rw [hH, hW]
      refine if_congr ?_ rfl rfl
      constructor
      · rintro ⟨h1, h2, h3, h4, h5⟩
        exact ⟨⟨by omega, by omega, by omega, by omega⟩, h5⟩
      · rintro ⟨⟨h1, h2, h3, h4⟩, h5⟩
        exact ⟨by omega, by omega, by omega, by omega, h5⟩
    · simp only [if_pos hoy, if_pos hox]
      have eY : 0 + (y - t.oy.toNat) = ((y : Int) - t.oy).toNat := by
        omega
      have eX : 0 + (x - t.ox.toNat) = ((x : Int) - t.ox).toNat := by
        omega
      rw [eY, eX]
      have hH : t.oy.toNat +
          (if t.oy.toNat + (t.height - 0) > H
            then H - t.oy.toNat else t.height - 0)
          = min H (t.oy.toNat + (t.height - 0)) := by
        split <;> omega
      have hW : t.ox.toNat +
          (if t.ox.toNat + (t.width - 0) > W
            then W - t.ox.toNat else t.width - 0)
          = min W (t.ox.toNat + (t.width - 0)) := by
        split <;> omega
      rw [hH, hW]
      refine if_congr ?_ rfl rfl
      constructor
      · rintro ⟨h1, h2, h3, h4, h5⟩
        exact ⟨⟨by omega, by omega, by omega, by omega⟩, h5⟩
      · rintro ⟨⟨h1, h2, h3, h4⟩, h5⟩
        exact ⟨by omega, by omega, by omega, by omega, h5⟩

theorem layerPre_cell (H W : Nat) (ts : List Template) (y x : Nat)
    (hy : y < H) (hx : x < W) :
    layerPre H W ts y x
      = match (ts.filter (fun t => decide (writes t y x))).getLast? with
        | some t => tvalAt t y x
        | none => 255 := by
  induction ts using List.reverseRecOn with
  | nil => rfl
  | append_singleton ts u ih =>
    simp only [layerPre] at ih ⊢
    rw [List.foldl_append, List.foldl_cons, List.foldl_nil]
    rw [applyTemplate_eq H W _ u y x hy hx]
    rw [List.filter_append]
    by_cases hw : writes u y x
    · rw [if_pos hw]
      have hfu : List.filter (fun t => decide (writes t y x)) [u] = [u] := by
        simp [hw]
      rw [hfu, List.getLast?_concat]
    · rw [if_neg hw]
      have hfu : List.filter (fun t => decide (writes t y x)) [u] = [] := by
        simp [hw]
      rw [hfu, List.append_nil]
      exact ih

/-- C9: the composite built by `layer` satisfies, at every canvas cell:
z-order, i.e. the cell where a later template is non-transparent holds
that later template palette index regardless of the templates before it;
transparent cells never overwrite lower layers (appending a template that
is transparent wherever it covers the cell leaves the cell unchanged);
and after all templates are applied every cell the placemap marks
non-placeable (sentinel 255, and in fact any nonzero placemap value) is
set back to the transparent index, while placeable cells (placemap 0)
keep the layered value. -/
theorem layer_zorder_compositor (H W : Nat) (pm : Arr) :
    (∀ (l₁ : List Template) (t : Template) (l₂ : List Template) (y x : Nat),
        y < H → x < W → writes t y x → (∀ u ∈ l₂, ¬ writes u y x) →
        layerPre H W (l₁ ++ t :: l₂) y x = tvalAt t y x)
    ∧ (∀ (ts : List Template) (t : Template) (y x : Nat), y < H → x < W →
        (covers t y x → tvalAt t y x = 255) →
        layerPre H W (ts ++ [t]) y x = layerPre H W ts y x)
    ∧ (∀ (ts : List Template) (y x : Nat), pm.val y x = 255 →
        layer ts pm y x = 255)
    ∧ (∀ (ts : List Template) (y x : Nat), pm.val y x = 0 →
        layer ts pm y x = layerPre pm.h pm.w ts y x) := by
  refine ⟨?_, ?_, ?_, ?_⟩
  · intro l₁ t l₂ y x hy hx hw hnone
    rw [layerPre_cell H W _ y x hy hx]
    have h2 : List.filter (fun u => decide (writes u y x)) l₂ = [] := by
      rw [List.filter_eq_nil_iff]
      intro u hu
      simp [hnone u hu]
    have hft : List.filter (fun u => decide (writes u y x)) (l₁ ++ t :: l₂)
        = List.filter (fun u => decide (writes u y x)) l₁ ++ [t] := by
      rw [List.filter_append, List.filter_cons, if_pos (decide_eq_true hw), h2]
    rw [hft, List.getLast?_concat]
  · intro ts t y x hy hx htr
    have hnw : ¬ writes t y x := by
      rintro ⟨hcv, hne⟩
      exact hne (htr hcv)
    rw [layerPre_cell H W _ y x hy hx, layerPre_cell H W ts y x hy hx]
    rw [List.filter_append]
    have hfu : List.filter (fun u => decide (writes u y x)) [t] = [] := by
      simp [hnw]
    rw [hfu, List.append_nil]
  · intro ts y x hpm
    simp only [layer]
    rw [hpm]
    rw [if_pos (by decide : (255 : Nat) ≠ 0)]
  · intro ts y x hpm
    simp only [layer]
    rw [hpm]
    rw [if_neg (by simp : ¬((0 : Nat) ≠ 0))]

/-- Witness for C9: over a 1×1 canvas, layering the index-3 template then
the index-7 template on top leaves the later index 7 at the cell; and on a
placemap marking the cell non-placeable, the final composite value is the
transparent index 255. -/
theorem layer_zorder_compositor_witness :
    layerPre 1 1 ([tA] ++ tB :: []) 0 0 = tvalAt tB 0 0
    ∧ layer [tA] pmFull 0 0 = 255 :=
  ⟨(layer_zorder_compositor 1 1 pmZero).1 [tA] tB [] 0 0 (by decide) (by decide)
      (by decide) (fun u hu => absurd hu (List.not_mem_nil u)),
   (layer_zorder_compositor 1 1 pmFull).2.2.1 [tA] 0 0 rfl⟩

/-- C10: every successful `update_template` call returns a replacing
template whose hidden flag is False: the source unconditionally executes
`new_temp.hidden = False` before persisting, for every edit (new source,
new name or new owner alike).  Note the lookup itself runs with
`hidden=False`, so only non-hidden templates can even be edited. -/
theorem update_template_clears_hidden (m : Manager) (currentName : List Char)
    (userId : Nat) (admins : List Nat) (fetched : Option Template)
    (newName : Option (List Char)) (newOwner : Option Nat)
    (dbResult : Option Nat) (oldT newT : Template) (m' : Manager)
    (h : updateTemplate m currentName userId admins fetched newName newOwner
        dbResult = Except.ok (oldT, newT, m')) :
    newT.hidden = some false := by
  simp only [updateTemplate] at h
  repeat' split at h
  all_goals
    first
      | exact absurd h (fun hh => Except.noConfusion hh)
      | (injection h with h1
         rw [Prod.mk.injEq, Prod.mk.injEq] at h1
         obtain ⟨-, h2, -⟩ := h1
         rw [← h2])

/-- Witness for C10: renaming the public template "ab" to "cd" succeeds
and the replacing template is public. -/
theorem update_template_clears_hidden_witness : tExRenamed.hidden = some false :=
  update_template_clears_hidden mgr7 ("ab".toList) 1 [] none (some ("cd".toList))
    none (some 1) tEx tExRenamed ⟨[tExRenamed], none, 1⟩ (by rfl)

end Clueless
